import Mathlib

set_option autoImplicit false
set_option maxRecDepth 8000

/-!
Verification of the record-transformation core of twarc_csv.py, a converter
that turns line-delimited JSON objects describing social-media posts, users,
compliance events or counts buckets into flat CSV-style tables.

The embedding below mirrors, definition by definition, the source file
src/twarc_csv.py: the column constants (lines 15-135), the constructor
DataFrameConverter.__init__ (lines 152-216), _inline_referenced_tweets
(lines 226-243), _format_tweet (lines 245-301), _process_tweets
(lines 303-321), _process_dataframe (lines 323-352) and process
(lines 354-381).

Python values decoded from JSON are modelled by the inductive type Value;
Python dicts are association lists with unique keys in insertion order,
and the dictionary primitives dget / dset / dpop reproduce Python lookup,
assignment (replace in place, append when new) and pop semantics.
Stateful counter updates are threaded explicitly through a Counts record,
and code paths that would raise a Python exception return none.
-/

/-- A JSON-decoded Python value: None, str, int, bool, list or dict.
Floats do not occur in any behaviour the claims concern and are omitted. -/
inductive Value where
  | null : Value
  | str (s : String) : Value
  | int (n : Int) : Value
  | bool (b : Bool) : Value
  | arr (xs : List Value) : Value
  | obj (fields : List (String × Value)) : Value

/-- A Python dict in insertion order: a list of key-value pairs, with keys
unique as Python dicts guarantee. -/
abbrev Dict := List (String × Value)

mutual

def decEqValue : (a b : Value) → Decidable (a = b)
  | .null, .null => isTrue rfl
  | .null, .str _ => isFalse (fun h => nomatch h)
  | .null, .int _ => isFalse (fun h => nomatch h)
  | .null, .bool _ => isFalse (fun h => nomatch h)
  | .null, .arr _ => isFalse (fun h => nomatch h)
  | .null, .obj _ => isFalse (fun h => nomatch h)
  | .str _, .null => isFalse (fun h => nomatch h)
  | .str a, .str b =>
      if h : a = b then isTrue (by rw [h]) else isFalse (by simp [h])
  | .str _, .int _ => isFalse (fun h => nomatch h)
  | .str _, .bool _ => isFalse (fun h => nomatch h)
  | .str _, .arr _ => isFalse (fun h => nomatch h)
  | .str _, .obj _ => isFalse (fun h => nomatch h)
  | .int _, .null => isFalse (fun h => nomatch h)
  | .int _, .str _ => isFalse (fun h => nomatch h)
  | .int a, .int b =>
      if h : a = b then isTrue (by rw [h]) else isFalse (by simp [h])
  | .int _, .bool _ => isFalse (fun h => nomatch h)
  | .int _, .arr _ => isFalse (fun h => nomatch h)
  | .int _, .obj _ => isFalse (fun h => nomatch h)
  | .bool _, .null => isFalse (fun h => nomatch h)
  | .bool _, .str _ => isFalse (fun h => nomatch h)
  | .bool _, .int _ => isFalse (fun h => nomatch h)
  | .bool a, .bool b =>
      if h : a = b then isTrue (by rw [h]) else isFalse (by simp [h])
  | .bool _, .arr _ => isFalse (fun h => nomatch h)
  | .bool _, .obj _ => isFalse (fun h => nomatch h)
  | .arr _, .null => isFalse (fun h => nomatch h)
  | .arr _, .str _ => isFalse (fun h => nomatch h)
  | .arr _, .int _ => isFalse (fun h => nomatch h)
  | .arr _, .bool _ => isFalse (fun h => nomatch h)
  | .arr xs, .arr ys =>
      match decEqValueList xs ys with
      | isTrue h => isTrue (by rw [h])
      | isFalse h => isFalse (by simp [h])
  | .arr _, .obj _ => isFalse (fun h => nomatch h)
  | .obj _, .null => isFalse (fun h => nomatch h)
  | .obj _, .str _ => isFalse (fun h => nomatch h)
  | .obj _, .int _ => isFalse (fun h => nomatch h)
  | .obj _, .bool _ => isFalse (fun h => nomatch h)
  | .obj _, .arr _ => isFalse (fun h => nomatch h)
  | .obj fs, .obj gs =>
      match decEqFieldList fs gs with
      | isTrue h => isTrue (by rw [h])
      | isFalse h => isFalse (by simp [h])

def decEqValueList : (xs ys : List Value) → Decidable (xs = ys)
  | [], [] => isTrue rfl
  | [], _ :: _ => isFalse (fun h => nomatch h)
  | _ :: _, [] => isFalse (fun h => nomatch h)
  | x :: xs, y :: ys =>
      match decEqValue x y with
      | isTrue h1 =>
          match decEqValueList xs ys with
          | isTrue h2 => isTrue (by rw [h1, h2])
          | isFalse h2 => isFalse (by simp [h2])
      | isFalse h1 => isFalse (by simp [h1])

def decEqFieldList : (fs gs : List (String × Value)) → Decidable (fs = gs)
  | [], [] => isTrue rfl
  | [], _ :: _ => isFalse (fun h => nomatch h)
  | _ :: _, [] => isFalse (fun h => nomatch h)
  | (k, v) :: fs, (k', v') :: gs =>
      if hk : k = k' then
        match decEqValue v v' with
        | isTrue h1 =>
            match decEqFieldList fs gs with
            | isTrue h2 => isTrue (by rw [hk, h1, h2])
            | isFalse h2 => isFalse (by simp [h2])
        | isFalse h1 => isFalse (by simp [h1])
      else isFalse (by simp [hk])

end

instance : DecidableEq Value := decEqValue

/-- Python dict lookup d[k] (as an Option), searching pairs in order. -/
def dget : Dict → String → Option Value
  | [], _ => none
  | (k', v) :: rest, k => if k' = k then some v else dget rest k

/-- Python dict assignment d[k] = v: replaces the value in place when the
key exists, otherwise appends the pair at the end. -/
def dset : Dict → String → Value → Dict
  | [], k, v => [(k, v)]
  | (k', v') :: rest, k, v =>
      if k' = k then (k, v) :: rest else (k', v') :: dset rest k v

/-- Python d.pop(k, None): removes the key when present. -/
def dpop : Dict → String → Dict
  | [], _ => []
  | (k', v) :: rest, k => if k' = k then dpop rest k else (k', v) :: dpop rest k

/-- Python membership test k in d. -/
def dcontains (d : Dict) (k : String) : Bool := (dget d k).isSome

/-- Python truthiness of a value, as used by "not tweet[field]": None, empty
string, zero, False and empty containers are falsy. -/
def falsy : Value → Bool
  | .null => true
  | .str s => s.isEmpty
  | .int n => n = 0
  | .bool b => !b
  | .arr xs => xs.isEmpty
  | .obj fs => fs.isEmpty

/-- Python str.split with a one-character separator, keeping empty pieces
(so a trailing separator yields a trailing empty string). -/
def splitChars (c : Char) : List Char → List Char → List String
  | [], acc => [String.mk acc.reverse]
  | a :: rest, acc =>
      if a = c then String.mk acc.reverse :: splitChars c rest []
      else splitChars c rest (a :: acc)

def pySplit (c : Char) (s : String) : List String := splitChars c s.data []

/-- Python substring containment, needle in hay, for the input_data_type
dispatch in DataFrameConverter.__init__. -/
def charsStartWith : List Char → List Char → Bool
  | [], _ => true
  | _ :: _, [] => false
  | n :: ns, h :: hs => n = h && charsStartWith ns hs

def containsSub : List Char → List Char → Bool
  | [], needle => needle.isEmpty
  | a :: t, needle => charsStartWith needle (a :: t) || containsSub t needle

def strIn (needle hay : String) : Bool := containsSub hay.data needle.data

/-- Source lines 15-90: the tweet column schema, a triple-quoted string with
a trailing newline split on newlines, so the list ends with an empty string. -/
def DEFAULT_TWEET_COLUMNS : List String := pySplit '\n' "id\nconversation_id\nreferenced_tweets.replied_to.id\nreferenced_tweets.retweeted.id\nreferenced_tweets.quoted.id\nauthor_id\nin_reply_to_user_id\nretweeted_user_id\nquoted_user_id\ncreated_at\ntext\nlang\nsource\npublic_metrics.like_count\npublic_metrics.quote_count\npublic_metrics.reply_count\npublic_metrics.retweet_count\nreply_settings\npossibly_sensitive\nwithheld.scope\nwithheld.copyright\nwithheld.country_codes\nentities.annotations\nentities.cashtags\nentities.hashtags\nentities.mentions\nentities.urls\ncontext_annotations\nattachments.media\nattachments.media_keys\nattachments.poll.duration_minutes\nattachments.poll.end_datetime\nattachments.poll.id\nattachments.poll.options\nattachments.poll.voting_status\nattachments.poll_ids\nauthor.id\nauthor.created_at\nauthor.username\nauthor.name\nauthor.description\nauthor.entities.description.cashtags\nauthor.entities.description.hashtags\nauthor.entities.description.mentions\nauthor.entities.description.urls\nauthor.entities.url.urls\nauthor.location\nauthor.pinned_tweet_id\nauthor.profile_image_url\nauthor.protected\nauthor.public_metrics.followers_count\nauthor.public_metrics.following_count\nauthor.public_metrics.listed_count\nauthor.public_metrics.tweet_count\nauthor.url\nauthor.verified\nauthor.withheld.scope\nauthor.withheld.copyright\nauthor.withheld.country_codes\ngeo.coordinates.coordinates\ngeo.coordinates.type\ngeo.country\ngeo.country_code\ngeo.full_name\ngeo.geo.bbox\ngeo.geo.type\ngeo.id\ngeo.name\ngeo.place_id\ngeo.place_type\n__twarc.retrieved_at\n__twarc.url\n__twarc.version\n"

/-- Source lines 92-121: the user column schema, again with a trailing
empty string coming from the final newline. -/
def DEFAULT_USER_COLUMNS : List String := pySplit '\n' "id\ncreated_at\nusername\nname\ndescription\nentities.description.cashtags\nentities.description.hashtags\nentities.description.mentions\nentities.description.urls\nentities.url.urls\nlocation\npinned_tweet_id\npinned_tweet\nprofile_image_url\nprotected\npublic_metrics.followers_count\npublic_metrics.following_count\npublic_metrics.listed_count\npublic_metrics.tweet_count\nurl\nverified\nwithheld.scope\nwithheld.copyright\nwithheld.country_codes\n__twarc.retrieved_at\n__twarc.url\n__twarc.version\n"

/-- Source lines 123-130: the compliance column schema. -/
def DEFAULT_COMPLIANCE_COLUMNS : List String := pySplit '\n' "id\naction\ncreated_at\nredacted_at\nreason\n"

/-- Source lines 132-135: the counts column schema. In the source this
string is NOT split on newlines, unlike the three constants above. -/
def DEFAULT_COUNTS_COLUMNS : String := "start\nend\ncount\n"

/-- Python list.extend(x for x in new if x not in cols) where the generator
tests membership against the list being extended, so items already appended
from new are also skipped. -/
def extendUnique (cols new : List String) : List String :=
  new.foldl (fun acc x => if x ∈ acc then acc else acc ++ [x]) cols

/-- Column construction from DataFrameConverter.__init__, lines 173-193.
Iterating the unsplit DEFAULT_COUNTS_COLUMNS string yields its characters as
one-character strings, exactly as Python iteration over a str does. -/
def buildColumns (input_data_type : String) (extra_input_columns : String) :
    List String :=
  let cols : List String := []
  let cols := if strIn "tweets" input_data_type then
      extendUnique cols DEFAULT_TWEET_COLUMNS else cols
  let cols := if strIn "users" input_data_type then
      extendUnique cols DEFAULT_USER_COLUMNS else cols
  let cols := if strIn "compliance" input_data_type then
      extendUnique cols DEFAULT_COMPLIANCE_COLUMNS else cols
  let cols := if strIn "counts" input_data_type then
      extendUnique cols (DEFAULT_COUNTS_COLUMNS.data.map (fun ch => String.mk [ch]))
      else cols
  let cols := if extra_input_columns ≠ "" then
      extendUnique cols (pySplit ',' extra_input_columns) else cols
  cols

/-- The run counters dictionary created in DataFrameConverter.__init__,
lines 198-216. -/
structure Counts where
  lines : Nat := 0
  tweets : Nat := 0
  referenced_tweets : Nat := 0
  retweets : Nat := 0
  quotes : Nat := 0
  replies : Nat := 0
  unavailable : Nat := 0
  non_tweets : Nat := 0
  parse_errors : Nat := 0
  duplicates : Nat := 0
  rows : Nat := 0
  input_columns : Nat := 0
  output_columns : Nat := 0
  deriving DecidableEq

/-- Initial counters: input_columns is the length of the constructed column
list and output_columns is the LENGTH OF THE STRING parameter, as in
source line 214. -/
def countsInit (cols : List String) (output_columns : String) : Counts :=
  { input_columns := cols.length, output_columns := output_columns.length }

/-- Interpret a list element as a dict; any non-dict entry in a reference
list makes the Python code raise when it is subscripted, which the
callers model as none. -/
def asObj : Value → Option Dict
  | .obj fs => some fs
  | _ => none

/-- Map a fallible function over a list, failing as soon as one element
fails, the way a Python comprehension propagates an exception. -/
def mapOpt {α β : Type} (f : α → Option β) : List α → Option (List β)
  | [] => some []
  | x :: xs =>
      match f x, mapOpt f xs with
      | some y, some ys => some (y :: ys)
      | _, _ => none

/-- The comparison t[quote type] == kind from the two list comprehensions in
_format_tweet, lines 259 and 265; a non-string type value simply compares
unequal. -/
def isType (kind : String) (t : Dict) : Bool :=
  match dget t "type" with
  | some (.str s) => s = kind
  | _ => false

/-- Lines 261-262 and 267-268: record the author id of a selected reference
as a new top-level field when that reference carries one. -/
def applyUserId (k : String) (rt? : Option Dict) (tweet : Dict) : Dict :=
  match rt? with
  | some rt =>
      match dget rt "author_id" with
      | some v => dset tweet k v
      | none => tweet
  | none => tweet

/-- Lines 274-280: overwrite the five body fields of the tweet with the
fields of the retweeted reference, null when absent (dict.pop default None).
The source also removes the popped keys from the reference entry in place;
the remaining uses of that entry read only its type and id keys, which the
pops never remove, so the in-place removal cannot reach any output. -/
def mergeFields (rt tweet : Dict) : Dict :=
  let tweet := dset tweet "text" ((dget rt "text").getD .null)
  let tweet := dset tweet "entities" ((dget rt "entities").getD .null)
  let tweet := dset tweet "attachments" ((dget rt "attachments").getD .null)
  let tweet := dset tweet "context_annotations"
      ((dget rt "context_annotations").getD .null)
  dset tweet "public_metrics" ((dget rt "public_metrics").getD .null)

/-- Line 284: one rebuilt reference entry, the singleton dict from the
relation kind to a dict holding only the id. Python would also accept a
non-string hashable type value as a dict key; the model requires a string
key, the only shape the schema and the claims concern. A missing id key
raises in Python and gives none here. -/
def refPair (r : Dict) : Option (String × Value) :=
  match dget r "type" with
  | some (.str s) =>
      match dget r "id" with
      | some idv => some (s, Value.obj [("id", idv)])
      | none => none
  | _ => none

/-- Python dict(ChainMap(m1, ..., mn)) for singleton maps mi: iteration
order collects keys from the last map to the first, keeping the first
position at which a key is seen in that reversed scan, while each value is
taken from the EARLIEST map containing the key. -/
def chainMapDict (maps : Dict) : Dict :=
  (extendUnique [] (maps.reverse.map Prod.fst)).map
    (fun k => (k, (dget maps k).getD .null))

/-- Lines 294-299: drop a field when it is present and falsy. -/
def popEmpty (k : String) (d : Dict) : Dict :=
  match dget d k with
  | some v => if falsy v then dpop d k else d
  | none => d

/-- The middle section of _format_tweet, lines 257-288, run when the tweet
has a reference list: select the last retweeted and last quoted entry,
record their author ids, merge the retweeted body when merge-mode is on,
and replace the reference list by the compact kind-to-id mapping. -/
def refsStage (merge : Bool) (refs : List Dict) (pairs : Dict) (tweet : Dict) :
    Dict :=
  let rt? := (refs.filter (isType "retweeted")).getLast?
  let tweet := applyUserId "retweeted_user_id" rt? tweet
  let tweet := applyUserId "quoted_user_id"
      ((refs.filter (isType "quoted")).getLast?) tweet
  let tweet := match rt? with
    | some rt => if merge then mergeFields rt tweet else tweet
    | none => tweet
  dset tweet "referenced_tweets" (.obj (chainMapDict pairs))

/-- Lines 292-299: drop the leftover type marker and any empty attachments,
entities or public_metrics. -/
def postStage (t : Dict) : Dict :=
  popEmpty "public_metrics" (popEmpty "entities"
    (popEmpty "attachments" (dpop t "type")))

/-- DataFrameConverter._format_tweet, lines 245-301. The source deep-copies
the tweet first, so the function is observationally pure; a tweet whose
reference list is not a list of dicts each carrying a type key (and an id
key for the rebuild) makes the source raise, modelled as none. The rebuild
of the reference mapping reads only type and id keys, which the merge step
never pops, so evaluating the pairs before the merge is equivalent to the
source order. -/
def format_tweet (merge : Bool) (tweet0 : Dict) : Option Dict :=
  let tweet := dpop (dpop tweet0 "pinned_tweet") "in_reply_to_user"
  match dget tweet "referenced_tweets" with
  | none => some (postStage (dset tweet "referenced_tweets" (.obj [])))
  | some (.arr xs) =>
      match mapOpt asObj xs with
      | some refs =>
          if refs.all (fun r => dcontains r "type") then
            match mapOpt refPair refs with
            | some pairs => some (postStage (refsStage merge refs pairs tweet))
            | none => none
          else none
      | none => none
  | some _ => none

/-- DataFrameConverter._process_tweets, lines 303-321: count and
deduplicate a stream of formatted rows against the run-scoped identifier
set, which is modelled as a duplicate-free list in insertion order. -/
def addId (ids : List Value) (v : Value) : List Value :=
  if v ∈ ids then ids else ids ++ [v]

def process_tweets (allow : Bool) :
    List Dict → List Value → Counts → List Dict × List Value × Counts
  | [], ids, c => ([], ids, c)
  | t :: ts, ids, c =>
      match dget t "id" with
      | some tid =>
          let c1 := { c with tweets := c.tweets + 1 }
          let c2 := if tid ∈ ids then
              { c1 with duplicates := c1.duplicates + 1 } else c1
          let keep : Bool := allow || !(decide (tid ∈ ids))
          let rest := process_tweets allow ts (addId ids tid) c2
          (if keep then t :: rest.1 else rest.1, rest.2)
      | none =>
          process_tweets allow ts ids
            { c with non_tweets := c.non_tweets + 1 }

/-- The loop body of _inline_referenced_tweets, lines 231-242: for each
reference entry, count it, graft the parent retrieval metadata onto it,
and either format it as an extra row (more than three keys) or count it
unavailable. Returns the extra rows, the mutated entries as the caller of
the generator can observe them, and the updated counters; a formatting
error propagates as none. -/
def inlineLoop (merge : Bool) (pt : Value) :
    List Dict → Counts → Option (List Dict × List Dict × Counts)
  | [], c => some ([], [], c)
  | e :: es, c =>
      let c := { c with referenced_tweets := c.referenced_tweets + 1 }
      let e' := dset e "__twarc" pt
      if e'.length > 3 then
        match format_tweet merge e' with
        | some r =>
            match inlineLoop merge pt es c with
            | some (rows, es', c') => some (r :: rows, e' :: es', c')
            | none => none
        | none => none
      else
        match inlineLoop merge pt es { c with unavailable := c.unavailable + 1 } with
        | some (rows, es', c') => some (rows, e' :: es', c')
        | none => none

/-- DataFrameConverter._inline_referenced_tweets, lines 226-243. Returns
the yielded rows in order, the parent tweet as left behind for the caller
(the source mutates the reference entries in place through aliasing), and
the updated counters. The parent is always formatted and yielded last. -/
def inline_referenced_tweets (enabled merge : Bool) (tweet : Dict)
    (c : Counts) : Option (List Dict × Dict × Counts) :=
  if dcontains tweet "referenced_tweets" && enabled then
    match dget tweet "referenced_tweets" with
    | some (.arr xs) =>
        match mapOpt asObj xs with
        | some entries =>
            let pt := (dget tweet "__twarc").getD .null
            match inlineLoop merge pt entries c with
            | some (rows, entries', c') =>
                let parent := dset tweet "referenced_tweets"
                    (.arr (entries'.map .obj))
                match format_tweet merge parent with
                | some pr => some (rows ++ [pr], parent, c')
                | none => none
            | none => none
        | none => none
    | _ => none
  else
    match format_tweet merge tweet with
    | some pr => some ([pr], tweet, c)
    | none => none

mutual

/-- The per-record flattening performed by pd.json_normalize, line 363:
nested dicts expand into dot-delimited key paths, everything else (scalars
and lists) stays a cell value. Only the set of produced key paths and the
value at each path are relied on by the claims; the intra-row column order
of pandas is not modelled. -/
def flattenDict : Dict → Dict
  | [] => []
  | (k, v) :: rest => flattenEntry k v ++ flattenDict rest

def flattenEntry (k : String) : Value → Dict
  | .obj fs => (flattenDict fs).map (fun p => (k ++ "." ++ p.1, p.2))
  | v => [(k, v)]

end

/-- One table row: every schema column in order, none marking a missing
cell (NaN). -/
abbrev Row := List (String × Option Value)

/-- DataFrame.reindex(columns=cols) applied to one normalized record. -/
def reindex (cols : List String) (row : Dict) : Row :=
  cols.map (fun k => (k, dget row k))

/-- A minimal json.dumps, used only by the optional encode-all, encode-text
and encode-lists branches of _process_dataframe, which no claim constrains
beyond which cells they touch. -/
def jsonEscapeChar (c : Char) : List Char :=
  if c = '"' then ['\\', '"']
  else if c = '\\' then ['\\', '\\']
  else if c = '\n' then ['\\', 'n']
  else if c = '\r' then ['\\', 'r']
  else if c = '\t' then ['\\', 't']
  else [c]

def jsonEscape (s : String) : String := String.mk (s.data.flatMap jsonEscapeChar)

mutual

def dumpsValue : Value → String
  | .null => "null"
  | .str s => "\"" ++ jsonEscape s ++ "\""
  | .int n => toString n
  | .bool b => if b then "true" else "false"
  | .arr xs => "[" ++ dumpsList xs ++ "]"
  | .obj fs => "\x7b" ++ dumpsFields fs ++ "\x7d"

def dumpsList : List Value → String
  | [] => ""
  | [x] => dumpsValue x
  | x :: y :: rest => dumpsValue x ++ ", " ++ dumpsList (y :: rest)

def dumpsFields : List (String × Value) → String
  | [] => ""
  | [(k, v)] => "\"" ++ jsonEscape k ++ "\": " ++ dumpsValue v
  | (k, v) :: p :: rest =>
      "\"" ++ jsonEscape k ++ "\": " ++ dumpsValue v ++ ", " ++
        dumpsFields (p :: rest)

end

/-- Python single-character str.replace: every occurrence of c is replaced
by the character sequence new. -/
def replaceChar (c : Char) (new : List Char) : List Char → List Char
  | [] => []
  | a :: rest => (if a = c then new else [a]) ++ replaceChar c new rest

/-- Line 341: the mandatory newline escape x.replace(CR, empty).replace(LF,
backslash-n) applied to every string cell in the default encoding mode. -/
def minimalEscape (s : String) : String :=
  String.mk (replaceChar '\n' ['\\', 'n'] (replaceChar '\r' [] s.data))

/-- pd.api.types.is_list_like: lists and dicts are list-like, scalars and
strings are not. -/
def isListLike : Value → Bool
  | .arr _ => true
  | .obj _ => true
  | _ => false

/-- The per-cell action of DataFrameConverter._process_dataframe, lines
323-352, for a non-missing cell: encode-all serializes everything;
otherwise strings are either json-encoded (encode-text) or minimally
escaped, and then list-like values are serialized when list-encoding is
on. Missing cells are untouched (na_action ignore). -/
def cellTransform (ea et el : Bool) (x : Value) : Value :=
  if ea then .str (dumpsValue x)
  else
    let x := if et then
        (match x with | .str s => .str (dumpsValue (.str s)) | v => v)
      else
        (match x with | .str s => .str (minimalEscape s) | v => v)
    if el then (if isListLike x then .str (dumpsValue x) else x) else x

def encodeRow (ea et el : Bool) (row : Row) : Row :=
  row.map (fun p => (p.1, p.2.map (cellTransform ea et el)))

/-- The schema check and reconciliation of DataFrameConverter.process,
lines 363-381, applied to the normalized records of one batch: flatten
each record, collect the observed key paths, and either reject the whole
batch (empty table, parse_errors advanced by the row count, the unexpected
keys surfaced as the diagnostic) or reindex every row to the schema and
encode its cells. -/
def processBatch (ea et el : Bool) (cols : List String) (normRows : List Dict)
    (c : Counts) : List Row × Counts × Option (List String) :=
  let flat := normRows.map flattenDict
  let observed := extendUnique [] (flat.flatMap (fun r => r.map Prod.fst))
  let diff := observed.filter (fun k => !(decide (k ∈ cols)))
  if diff.length > 0 then
    ([], { c with parse_errors := c.parse_errors + normRows.length }, some diff)
  else
    ((flat.map (reindex cols)).map (encodeRow ea et el), c, none)

/-- The tweet_batch generator of process, lines 359-362: each flattened
tweet runs through reference expansion and then deduplication, threading
the identifier set and counters. -/
def tweetBatchLoop (inline merge allow : Bool) :
    List Dict → List Value → Counts → Option (List Dict × List Value × Counts)
  | [], ids, c => some ([], ids, c)
  | t :: ts, ids, c =>
      match inline_referenced_tweets inline merge t c with
      | some (rows, _parent, c1) =>
          let step := process_tweets allow rows ids c1
          match tweetBatchLoop inline merge allow ts step.2.1 step.2.2 with
          | some (rest, ids2, c3) => some (step.1 ++ rest, ids2, c3)
          | none => none
      | none => none

/-- DataFrameConverter.process, lines 354-381, over a batch of already
flattened tweets (the upstream ensure_flattened primitive is an external
collaborator outside this source). -/
def converter_process (ea et el inline merge allow : Bool) (cols : List String)
    (tweets : List Dict) (ids : List Value) (c : Counts) :
    Option (List Row × List Value × Counts × Option (List String)) :=
  match tweetBatchLoop inline merge allow tweets ids c with
  | some (batch, ids', c') =>
      let out := processBatch ea et el cols batch c'
      some (out.1, ids', out.2.1, out.2.2)
  | none => none

/-- Specification-side projection of _process_tweets: the number of
occurrences whose identifier is already in the evolving identifier set at
the moment it is checked. It has no duplicate-allowance parameter because
the source counts before it decides whether to filter. -/
def dupCount : List Dict → List Value → Nat
  | [], _ => 0
  | t :: ts, ids =>
      match dget t "id" with
      | some tid => (if tid ∈ ids then 1 else 0) + dupCount ts (addId ids tid)
      | none => dupCount ts ids

/-- The per-entry grafting done by reference expansion: each referenced
entry gains the retrieval-metadata key of its parent and nothing else. -/
def graftTwarc (pt : Value) (eds : List Dict) : List Dict :=
  eds.map (fun e => dset e "__twarc" pt)

/-!
Lemmas about the dictionary primitives and the helper functions, followed
by the claim theorems.
-/

@[simp]
theorem dget_dset_self (d : Dict) (k : String) (v : Value) :
    dget (dset d k v) k = some v := by
  induction d with
  | nil => simp [dget, dset]
  | cons p rest ih =>
      obtain ⟨pk, pv⟩ := p
      by_cases h : pk = k
      · subst h; simp [dset, dget]
      · simp [dset, h, dget, ih]

@[simp]
theorem dget_dset_ne (d : Dict) (k k' : String) (v : Value) (h : k' ≠ k) :
    dget (dset d k v) k' = dget d k' := by
  induction d with
  | nil => simp [dget, dset, Ne.symm h]
  | cons p rest ih =>
      obtain ⟨pk, pv⟩ := p
      by_cases hk : pk = k
      · subst hk; simp [dset, dget, Ne.symm h]
      · simp [dset, hk, dget, ih]

@[simp]
theorem dget_dpop_self (d : Dict) (k : String) : dget (dpop d k) k = none := by
  induction d with
  | nil => simp [dget, dpop]
  | cons p rest ih =>
      obtain ⟨pk, pv⟩ := p
      by_cases h : pk = k
      · simp [dpop, h, ih]
      · simp [dpop, h, dget, ih]

@[simp]
theorem dget_dpop_ne (d : Dict) (k k' : String) (h : k' ≠ k) :
    dget (dpop d k) k' = dget d k' := by
  induction d with
  | nil => simp [dpop]
  | cons p rest ih =>
      obtain ⟨pk, pv⟩ := p
      by_cases hk : pk = k
      · subst hk; simp [dpop, dget, ih, Ne.symm h]
      · simp [dpop, hk, dget, ih]

@[simp]
theorem dget_popEmpty_ne (d : Dict) (k k' : String) (h : k' ≠ k) :
    dget (popEmpty k d) k' = dget d k' := by
  unfold popEmpty
  cases hv : dget d k with
  | none => rfl
  | some v =>
      by_cases hf : falsy v
      · simp [hf, dget_dpop_ne _ _ _ h]
      · simp [hf]

theorem dget_popEmpty_self (d : Dict) (k : String) :
    dget (popEmpty k d) k =
      (dget d k).bind (fun v => if falsy v then none else some v) := by
  unfold popEmpty
  cases hv : dget d k with
  | none => simp [hv]
  | some v =>
      by_cases hf : falsy v
      · simp [hv, hf]
      · simp [hv, hf]

theorem extendUnique_cons (cols : List String) (a : String) (rest : List String) :
    extendUnique cols (a :: rest) =
      extendUnique (if a ∈ cols then cols else cols ++ [a]) rest := rfl

theorem mem_extendUnique (cols new : List String) (x : String) :
    x ∈ extendUnique cols new ↔ x ∈ cols ∨ x ∈ new := by
  induction new generalizing cols with
  | nil => simp [extendUnique]
  | cons a rest ih =>
      rw [extendUnique_cons]
      by_cases h : a ∈ cols
      · rw [if_pos h, ih]
        constructor
        · rintro (hc | hr)
          · exact Or.inl hc
          · exact Or.inr (List.mem_cons_of_mem _ hr)
        · rintro (hc | hr)
          · exact Or.inl hc
          · rcases List.mem_cons.1 hr with rfl | hr
            · exact Or.inl h
            · exact Or.inr hr
      · rw [if_neg h, ih]
        simp only [List.mem_append, List.mem_singleton, List.mem_cons]
        tauto

theorem dget_eq_none_iff (d : Dict) (k : String) :
    dget d k = none ↔ k ∉ d.map Prod.fst := by
  induction d with
  | nil => simp [dget]
  | cons p rest ih =>
      obtain ⟨pk, pv⟩ := p
      by_cases h : pk = k
      · subst h; simp [dget]
      · simp [dget, h, ih, Ne.symm h]

theorem dget_keyFun (keys : List String) (f : String → Option Value)
    (k : String) :
    dget (keys.map (fun x => (x, (f x).getD .null))) k =
      if k ∈ keys then some ((f k).getD .null) else none := by
  induction keys with
  | nil => simp [dget]
  | cons a rest ih =>
      by_cases h : a = k
      · subst h; simp [dget, ih]
      · simp [dget, h, ih, Ne.symm h, List.mem_cons]

theorem dget_chainMapDict (maps : Dict) (k : String) :
    dget (chainMapDict maps) k = dget maps k := by
  unfold chainMapDict
  rw [dget_keyFun (extendUnique [] (maps.reverse.map Prod.fst)) (fun x => dget maps x) k]
  by_cases h : k ∈ extendUnique [] (maps.reverse.map Prod.fst)
  · rw [if_pos h]
    have hk : k ∈ maps.map Prod.fst := by
      rcases (mem_extendUnique _ _ _).1 h with h' | h'
      · cases h'
      · rw [List.map_reverse, List.mem_reverse] at h'
        exact h'
    cases hv : dget maps k with
    | none => exact absurd ((dget_eq_none_iff _ _).1 hv) (by simp [hk])
    | some v => simp [hv]
  · rw [if_neg h]
    have hk : k ∉ maps.map Prod.fst := by
      intro hk
      exact h ((mem_extendUnique _ _ _).2 (Or.inr (by
        rw [List.map_reverse, List.mem_reverse]; exact hk)))
    exact ((dget_eq_none_iff _ _).2 hk).symm

theorem mapOpt_asObj (eds : List Dict) :
    mapOpt asObj (eds.map Value.obj) = some eds := by
  induction eds with
  | nil => rfl
  | cons e rest ih => simp [mapOpt, asObj, ih]

theorem format_tweet_with_refs (merge : Bool) (tweet : Dict) (eds : List Dict)
    (pairs : List (String × Value))
    (h1 : dget tweet "referenced_tweets" = some (.arr (eds.map .obj)))
    (h2 : eds.all (fun r => dcontains r "type") = true)
    (h3 : mapOpt refPair eds = some pairs) :
    format_tweet merge tweet =
      some (postStage (refsStage merge eds pairs
        (dpop (dpop tweet "pinned_tweet") "in_reply_to_user"))) := by
  have hget : dget (dpop (dpop tweet "pinned_tweet") "in_reply_to_user")
      "referenced_tweets" = some (.arr (eds.map .obj)) := by
    rw [dget_dpop_ne _ _ _ (by decide), dget_dpop_ne _ _ _ (by decide), h1]
  unfold format_tweet
  simp only [hget, mapOpt_asObj, h2, h3, if_true]

theorem format_tweet_no_refs (merge : Bool) (tweet : Dict)
    (h1 : dget tweet "referenced_tweets" = none) :
    format_tweet merge tweet =
      some (postStage (dset (dpop (dpop tweet "pinned_tweet") "in_reply_to_user")
        "referenced_tweets" (.obj []))) := by
  have hget : dget (dpop (dpop tweet "pinned_tweet") "in_reply_to_user")
      "referenced_tweets" = none := by
    rw [dget_dpop_ne _ _ _ (by decide), dget_dpop_ne _ _ _ (by decide), h1]
  unfold format_tweet
  simp only [hget]

@[simp]
theorem dget_applyUserId_ne (k k' : String) (rt? : Option Dict) (tweet : Dict)
    (h : k' ≠ k) : dget (applyUserId k rt? tweet) k' = dget tweet k' := by
  cases rt? with
  | none => rfl
  | some rt =>
      cases hra : dget rt "author_id" with
      | none => simp [applyUserId, hra]
      | some v => simp [applyUserId, hra, h]

theorem dget_applyUserId_self (k : String) (rt tweet : Dict) (v : Value)
    (h : dget rt "author_id" = some v) :
    dget (applyUserId k (some rt) tweet) k = some v := by
  simp [applyUserId, h]

@[simp]
theorem dget_mergeMatch_ne (merge : Bool) (rt? : Option Dict) (tweet : Dict)
    (k : String) (h1 : k ≠ "text") (h2 : k ≠ "entities") (h3 : k ≠ "attachments")
    (h4 : k ≠ "context_annotations") (h5 : k ≠ "public_metrics") :
    dget (match rt? with
          | some rt => if merge then mergeFields rt tweet else tweet
          | none => tweet) k = dget tweet k := by
  cases rt? with
  | none => rfl
  | some rt => cases merge <;> simp [mergeFields, h1, h2, h3, h4, h5]

@[simp]
theorem dget_postStage_ne (t : Dict) (k : String)
    (h1 : k ≠ "type") (h2 : k ≠ "attachments") (h3 : k ≠ "entities")
    (h4 : k ≠ "public_metrics") :
    dget (postStage t) k = dget t k := by
  simp [postStage, h1, h2, h3, h4]

theorem dget_popEmpty_self_of (d : Dict) (k : String)
    (h : ∀ v, dget d k = some v → falsy v = false) :
    dget (popEmpty k d) k = dget d k := by
  rw [dget_popEmpty_self]
  cases hv : dget d k with
  | none => rfl
  | some v => simp [h v hv]

/-- C3: for every record whose reference list contains a repost-of
(retweeted) entry, merge-mode enabled makes the output record's text,
entities, attachments, context_annotations and public_metrics equal the
corresponding fields taken from the last repost-of target while the
record's own author id is unchanged; merge-mode disabled leaves the five
fields as authored on the repost record itself. Presence-and-truthiness
hypotheses on entities, attachments and public_metrics keep the
empty-object removal step of lines 294-299 out of play, as in the
specification example. -/
theorem C3_repost_merge (tweet : Dict) (eds : List Dict)
    (pairs : List (String × Value)) (rt : Dict)
    (h1 : dget tweet "referenced_tweets" = some (.arr (eds.map .obj)))
    (h2 : eds.all (fun r => dcontains r "type") = true)
    (h3 : mapOpt refPair eds = some pairs)
    (hrt : (eds.filter (isType "retweeted")).getLast? = some rt)
    (hE : falsy ((dget rt "entities").getD .null) = false)
    (hA : falsy ((dget rt "attachments").getD .null) = false)
    (hP : falsy ((dget rt "public_metrics").getD .null) = false)
    (hE0 : ∀ v, dget tweet "entities" = some v → falsy v = false)
    (hA0 : ∀ v, dget tweet "attachments" = some v → falsy v = false)
    (hP0 : ∀ v, dget tweet "public_metrics" = some v → falsy v = false) :
    (∃ out, format_tweet true tweet = some out ∧
      dget out "text" = some ((dget rt "text").getD .null) ∧
      dget out "entities" = some ((dget rt "entities").getD .null) ∧
      dget out "attachments" = some ((dget rt "attachments").getD .null) ∧
      dget out "context_annotations" =
        some ((dget rt "context_annotations").getD .null) ∧
      dget out "public_metrics" = some ((dget rt "public_metrics").getD .null) ∧
      dget out "author_id" = dget tweet "author_id") ∧
    (∃ out, format_tweet false tweet = some out ∧
      dget out "text" = dget tweet "text" ∧
      dget out "entities" = dget tweet "entities" ∧
      dget out "attachments" = dget tweet "attachments" ∧
      dget out "context_annotations" = dget tweet "context_annotations" ∧
      dget out "public_metrics" = dget tweet "public_metrics" ∧
      dget out "author_id" = dget tweet "author_id") := by
  constructor
  · refine ⟨_, format_tweet_with_refs true tweet eds pairs h1 h2 h3,
      ?_, ?_, ?_, ?_, ?_, ?_⟩
    · simp [refsStage, hrt, mergeFields]
    · simp [postStage, refsStage, hrt, mergeFields, dget_popEmpty_self, hE]
    · simp [postStage, refsStage, hrt, mergeFields, dget_popEmpty_self, hA]
    · simp [refsStage, hrt, mergeFields]
    · simp [postStage, refsStage, hrt, mergeFields, dget_popEmpty_self, hP]
    · simp [refsStage, hrt, mergeFields]
  · refine ⟨_, format_tweet_with_refs false tweet eds pairs h1 h2 h3,
      ?_, ?_, ?_, ?_, ?_, ?_⟩
    · simp [refsStage, hrt]
    · rw [show dget tweet "entities" =
          dget (refsStage false eds pairs
            (dpop (dpop tweet "pinned_tweet") "in_reply_to_user")) "entities" by
          simp [refsStage, hrt]]
      simp only [postStage]
      rw [dget_popEmpty_ne _ _ _ (by decide),
        dget_popEmpty_self_of, dget_popEmpty_ne _ _ _ (by decide),
        dget_dpop_ne _ _ _ (by decide)]
      intro v hv
      rw [dget_popEmpty_ne _ _ _ (by decide),
        dget_dpop_ne _ _ _ (by decide)] at hv
      refine hE0 v ?_
      rw [← hv]; simp [refsStage, hrt]
    · rw [show dget tweet "attachments" =
          dget (refsStage false eds pairs
            (dpop (dpop tweet "pinned_tweet") "in_reply_to_user")) "attachments" by
          simp [refsStage, hrt]]
      simp only [postStage]
      rw [dget_popEmpty_ne _ _ _ (by decide),
        dget_popEmpty_ne _ _ _ (by decide), dget_popEmpty_self_of,
        dget_dpop_ne _ _ _ (by decide)]
      intro v hv
      rw [dget_dpop_ne _ _ _ (by decide)] at hv
      refine hA0 v ?_
      rw [← hv]; simp [refsStage, hrt]
    · simp [refsStage, hrt]
    · rw [show dget tweet "public_metrics" =
          dget (refsStage false eds pairs
            (dpop (dpop tweet "pinned_tweet") "in_reply_to_user")) "public_metrics" by
          simp [refsStage, hrt]]
      simp only [postStage]
      rw [dget_popEmpty_self_of]
      · rw [dget_popEmpty_ne _ _ _ (by decide),
          dget_popEmpty_ne _ _ _ (by decide), dget_dpop_ne _ _ _ (by decide)]
      · intro v hv
        rw [dget_popEmpty_ne _ _ _ (by decide),
          dget_popEmpty_ne _ _ _ (by decide),
          dget_dpop_ne _ _ _ (by decide)] at hv
        refine hP0 v ?_
        rw [← hv]; simp [refsStage, hrt]
    · simp [refsStage, hrt]

/-- C4: with a reference list present, the last repost-of entry and the
last quote-of entry are the selected ones, and, independently for each
kind, when the selected entry carries an author identifier the output
gains retweeted_user_id resp. quoted_user_id equal to it, for either
merge-mode; a record with repost-of entries and no quote-of entry (the
ordinary retweet) is covered by the first half alone. -/
theorem C4_reference_user_ids (merge : Bool) (tweet : Dict) (eds : List Dict)
    (pairs : List (String × Value))
    (h1 : dget tweet "referenced_tweets" = some (.arr (eds.map .obj)))
    (h2 : eds.all (fun r => dcontains r "type") = true)
    (h3 : mapOpt refPair eds = some pairs) :
    ∃ out, format_tweet merge tweet = some out ∧
      (∀ rr vr, (eds.filter (isType "retweeted")).getLast? = some rr →
        dget rr "author_id" = some vr →
        dget out "retweeted_user_id" = some vr) ∧
      (∀ rq vq, (eds.filter (isType "quoted")).getLast? = some rq →
        dget rq "author_id" = some vq →
        dget out "quoted_user_id" = some vq) := by
  refine ⟨_, format_tweet_with_refs merge tweet eds pairs h1 h2 h3, ?_, ?_⟩
  · intro rr vr hr hra
    simp only [refsStage, hr]
    rw [dget_postStage_ne _ _ (by decide) (by decide) (by decide) (by decide),
      dget_dset_ne _ _ _ _ (by decide)]
    cases merge <;>
      (simp [mergeFields]; rw [dget_applyUserId_self _ _ _ _ hra])
  · intro rq vq hq hqa
    simp only [refsStage, hq]
    rw [dget_postStage_ne _ _ (by decide) (by decide) (by decide) (by decide),
      dget_dset_ne _ _ _ _ (by decide),
      dget_mergeMatch_ne _ _ _ _ (by decide) (by decide) (by decide) (by decide)
        (by decide),
      dget_applyUserId_self _ _ _ _ hqa]

theorem refPair_some (r : Dict) (p : String × Value) (h : refPair r = some p) :
    ∃ s idv, dget r "type" = some (.str s) ∧ dget r "id" = some idv ∧
      p = (s, Value.obj [("id", idv)]) := by
  unfold refPair at h
  cases hty : dget r "type" with
  | none => rw [hty] at h; cases h
  | some v =>
      rw [hty] at h
      cases v with
      | str s =>
          cases hid : dget r "id" with
          | none => rw [hid] at h; cases h
          | some idv =>
              rw [hid] at h
              injection h with h'
              exact ⟨s, idv, rfl, rfl, h'.symm⟩
      | null => cases h
      | int n => cases h
      | bool b => cases h
      | arr xs => cases h
      | obj fs => cases h

theorem dget_pairs_of_mapOpt (eds : List Dict) (pairs : List (String × Value))
    (h : mapOpt refPair eds = some pairs) (kind : String) :
    dget pairs kind = (eds.find? (isType kind)).bind
      (fun r => (dget r "id").map (fun idv => Value.obj [("id", idv)])) := by
  induction eds generalizing pairs with
  | nil =>
      unfold mapOpt at h
      injection h with h
      subst h
      rfl
  | cons e rest ih =>
      unfold mapOpt at h
      cases hf : refPair e with
      | none => rw [hf] at h; cases h
      | some p =>
          cases hrest : mapOpt refPair rest with
          | none => rw [hf, hrest] at h; cases h
          | some ps =>
              rw [hf, hrest] at h
              injection h with h
              subst h
              obtain ⟨s, idv, hty, hid, rfl⟩ := refPair_some e p hf
              by_cases hk : s = kind
              · subst hk
                rw [List.find?_cons_of_pos _ (by simp [isType, hty])]
                simp [dget, hid]
              · rw [List.find?_cons_of_neg _ (by simp [isType, hty, hk])]
                rw [← ih ps hrest]
                simp [dget, hk]

/-- C5 (amended): the rebuilt referenced_tweets field is a mapping from
relation kind to a dict holding only the id, discarding all other fields
of each referenced sub-object, and when several entries share a kind the
mapping holds the id of the FIRST entry of that kind in list order, since
dict(ChainMap(m1, ..., mn)) resolves every key against the earliest map
containing it; a record with no reference list gets an empty mapping,
never an absent field. -/
theorem C5_reference_mapping (merge : Bool) (tweet : Dict) (eds : List Dict)
    (pairs : List (String × Value))
    (h1 : dget tweet "referenced_tweets" = some (.arr (eds.map .obj)))
    (h2 : eds.all (fun r => dcontains r "type") = true)
    (h3 : mapOpt refPair eds = some pairs) :
    (∃ out, format_tweet merge tweet = some out ∧
      dget out "referenced_tweets" = some (.obj (chainMapDict pairs)) ∧
      (∀ kind, dget (chainMapDict pairs) kind =
        (eds.find? (isType kind)).bind
          (fun r => (dget r "id").map (fun idv => Value.obj [("id", idv)])))) ∧
    (∀ t2, dget t2 "referenced_tweets" = none →
      ∃ out2, format_tweet merge t2 = some out2 ∧
        dget out2 "referenced_tweets" = some (.obj [])) := by
  constructor
  · refine ⟨_, format_tweet_with_refs merge tweet eds pairs h1 h2 h3, ?_, ?_⟩
    · simp only [refsStage]
      rw [dget_postStage_ne _ _ (by decide) (by decide) (by decide) (by decide),
        dget_dset_self]
    · intro kind
      rw [dget_chainMapDict, dget_pairs_of_mapOpt eds pairs h3 kind]
  · intro t2 ht2
    refine ⟨_, format_tweet_no_refs merge t2 ht2, ?_⟩
    rw [dget_postStage_ne _ _ (by decide) (by decide) (by decide) (by decide),
      dget_dset_self]

/-- C5 counterexample: with two quote-of entries carrying ids 1 and 2 in
that order, the rebuilt mapping holds the id of the FIRST entry, refuting
the last-entry-wins reading for the rebuilt reference mapping. -/
theorem C5_counterexample :
    format_tweet true
        [("id", Value.str "t"),
         ("referenced_tweets", Value.arr
            [Value.obj [("type", Value.str "quoted"), ("id", Value.str "1")],
             Value.obj [("type", Value.str "quoted"), ("id", Value.str "2")]])]
      = some [("id", Value.str "t"),
              ("referenced_tweets",
                Value.obj [("quoted", Value.obj [("id", Value.str "1")])])] ∧
    (format_tweet true
        [("id", Value.str "t"),
         ("referenced_tweets", Value.arr
            [Value.obj [("type", Value.str "quoted"), ("id", Value.str "1")],
             Value.obj [("type", Value.str "quoted"), ("id", Value.str "2")]])]
      ≠ some [("id", Value.str "t"),
              ("referenced_tweets",
                Value.obj [("quoted", Value.obj [("id", Value.str "2")])])]) := by
  constructor
  · decide
  · decide

/-- C5 witness: the amended theorem applied at the two-quote example, then
evaluated: the mapping holds the id of the first quote-of entry. -/
theorem C5_witness :
    dget (chainMapDict [("quoted", Value.obj [("id", Value.str "1")]),
        ("quoted", Value.obj [("id", Value.str "2")])]) "quoted"
      = some (Value.obj [("id", Value.str "1")]) := by
  obtain ⟨⟨out, hf, href, hkinds⟩, hempty⟩ :=
    C5_reference_mapping true
      [("id", Value.str "t"),
       ("referenced_tweets", Value.arr
          [Value.obj [("type", Value.str "quoted"), ("id", Value.str "1")],
           Value.obj [("type", Value.str "quoted"), ("id", Value.str "2")]])]
      [[("type", Value.str "quoted"), ("id", Value.str "1")],
       [("type", Value.str "quoted"), ("id", Value.str "2")]]
      [("quoted", Value.obj [("id", Value.str "1")]),
       ("quoted", Value.obj [("id", Value.str "2")])]
      (by decide) (by decide) (by decide)
  rw [hkinds "quoted"]
  decide

theorem mem_addId_self (ids : List Value) (v : Value) : v ∈ addId ids v := by
  unfold addId
  by_cases h : v ∈ ids <;> simp [h]

theorem mem_addId_of_mem (ids : List Value) (v w : Value) (h : v ∈ ids) :
    v ∈ addId ids w := by
  unfold addId
  by_cases hw : w ∈ ids <;> simp [hw, h]

theorem addId_of_mem (ids : List Value) (v : Value) (h : v ∈ ids) :
    addId ids v = ids := by
  unfold addId
  simp [h]

theorem process_tweets_cons_none (a : Bool) (t : Dict) (ts : List Dict)
    (ids : List Value) (c : Counts) (ht : dget t "id" = none) :
    process_tweets a (t :: ts) ids c =
      process_tweets a ts ids { c with non_tweets := c.non_tweets + 1 } := by
  simp [process_tweets, ht]

theorem process_tweets_cons_new (a : Bool) (t : Dict) (ts : List Dict)
    (ids : List Value) (c : Counts) (tid : Value)
    (ht : dget t "id" = some tid) (htid : tid ∉ ids) :
    process_tweets a (t :: ts) ids c =
      (t :: (process_tweets a ts (addId ids tid)
          { c with tweets := c.tweets + 1 }).1,
       (process_tweets a ts (addId ids tid)
          { c with tweets := c.tweets + 1 }).2) := by
  simp [process_tweets, ht, htid]

theorem process_tweets_cons_dup (a : Bool) (t : Dict) (ts : List Dict)
    (ids : List Value) (c : Counts) (tid : Value)
    (ht : dget t "id" = some tid) (htid : tid ∈ ids) :
    process_tweets a (t :: ts) ids c =
      ((if a then
          t :: (process_tweets a ts ids
            { c with tweets := c.tweets + 1, duplicates := c.duplicates + 1 }).1
        else (process_tweets a ts ids
            { c with tweets := c.tweets + 1, duplicates := c.duplicates + 1 }).1),
       (process_tweets a ts ids
          { c with tweets := c.tweets + 1, duplicates := c.duplicates + 1 }).2) := by
  simp [process_tweets, ht, htid, addId_of_mem ids tid htid]

theorem process_tweets_duplicates (a : Bool) (ts : List Dict)
    (ids : List Value) (c : Counts) :
    (process_tweets a ts ids c).2.2.duplicates
      = c.duplicates + dupCount ts ids := by
  induction ts generalizing ids c with
  | nil => simp [process_tweets, dupCount]
  | cons t ts ih =>
      cases ht : dget t "id" with
      | none =>
          rw [process_tweets_cons_none a t ts ids c ht]
          simp [dupCount, ht, ih]
      | some tid =>
          by_cases htid : tid ∈ ids
          · rw [process_tweets_cons_dup a t ts ids c tid ht htid]
            simp only [dupCount, ht, htid, addId_of_mem ids tid htid]
            cases a <;> (simp [ih]; omega)
          · rw [process_tweets_cons_new a t ts ids c tid ht htid]
            simp [dupCount, ht, htid, ih]

theorem process_tweets_ids_grow (a : Bool) (ts : List Dict) (ids : List Value)
    (c : Counts) :
    (∀ v ∈ ids, v ∈ (process_tweets a ts ids c).2.1) ∧
    (∀ t ∈ ts, ∀ v, dget t "id" = some v →
      v ∈ (process_tweets a ts ids c).2.1) := by
  induction ts generalizing ids c with
  | nil => simp [process_tweets]
  | cons t ts ih =>
      cases ht : dget t "id" with
      | none =>
          rw [process_tweets_cons_none a t ts ids c ht]
          refine ⟨(ih ids _).1, ?_⟩
          intro t' ht' v hv
          rcases List.mem_cons.1 ht' with rfl | ht'
          · rw [ht] at hv; cases hv
          · exact (ih ids _).2 t' ht' v hv
      | some tid =>
          by_cases htid : tid ∈ ids
          · rw [process_tweets_cons_dup a t ts ids c tid ht htid]
            refine ⟨fun v hv => (ih ids _).1 v hv, ?_⟩
            intro t' ht' v hv
            rcases List.mem_cons.1 ht' with rfl | ht'
            · rw [ht] at hv
              injection hv with hv
              subst hv
              exact (ih ids _).1 tid htid
            · exact (ih ids _).2 t' ht' v hv
          · rw [process_tweets_cons_new a t ts ids c tid ht htid]
            refine ⟨fun v hv => (ih (addId ids tid) _).1 v
              (mem_addId_of_mem _ _ _ hv), ?_⟩
            intro t' ht' v hv
            rcases List.mem_cons.1 ht' with rfl | ht'
            · rw [ht] at hv
              injection hv with hv
              subst hv
              exact (ih (addId ids tid) _).1 tid (mem_addId_self _ _)
            · exact (ih (addId ids tid) _).2 t' ht' v hv

theorem process_tweets_false_kept (ts : List Dict) (ids : List Value)
    (c : Counts) :
    (∀ t' ∈ (process_tweets false ts ids c).1,
      ∃ v, dget t' "id" = some v ∧ v ∉ ids ∧
        ts.find? (fun u => decide (dget u "id" = some v)) = some t') ∧
    ((process_tweets false ts ids c).1.filterMap
      (fun t => dget t "id")).Nodup := by
  induction ts generalizing ids c with
  | nil => simp [process_tweets]
  | cons t ts ih =>
      cases ht : dget t "id" with
      | none =>
          rw [process_tweets_cons_none false t ts ids c ht]
          obtain ⟨ihA, ihB⟩ := ih ids { c with non_tweets := c.non_tweets + 1 }
          refine ⟨?_, ihB⟩
          intro t' ht'
          obtain ⟨v, hv1, hv2, hv3⟩ := ihA t' ht'
          refine ⟨v, hv1, hv2, ?_⟩
          rw [List.find?_cons_of_neg _ (by simp [ht]), hv3]
      | some tid =>
          by_cases htid : tid ∈ ids
          · rw [process_tweets_cons_dup false t ts ids c tid ht htid]
            simp only [Bool.false_eq_true, if_false]
            obtain ⟨ihA, ihB⟩ := ih ids
              { c with tweets := c.tweets + 1, duplicates := c.duplicates + 1 }
            refine ⟨?_, ihB⟩
            intro t' ht'
            obtain ⟨v, hv1, hv2, hv3⟩ := ihA t' ht'
            refine ⟨v, hv1, hv2, ?_⟩
            have hne : dget t "id" ≠ some v := by
              rw [ht]
              intro hh
              injection hh with hh
              exact hv2 (hh ▸ htid)
            rw [List.find?_cons_of_neg _ (by simp [hne]), hv3]
          · rw [process_tweets_cons_new false t ts ids c tid ht htid]
            obtain ⟨ihA, ihB⟩ := ih (addId ids tid)
              { c with tweets := c.tweets + 1 }
            refine ⟨?_, ?_⟩
            · intro t' ht'
              rcases List.mem_cons.1 ht' with rfl | ht'
              · refine ⟨tid, ht, htid, ?_⟩
                rw [List.find?_cons_of_pos _ (by simp [ht])]
              · obtain ⟨v, hv1, hv2, hv3⟩ := ihA t' ht'
                have hvne : v ≠ tid := by
                  intro hh
                  exact hv2 (hh ▸ mem_addId_self ids tid)
                refine ⟨v, hv1, fun hv => hv2 (mem_addId_of_mem _ _ _ hv), ?_⟩
                rw [List.find?_cons_of_neg _ (by simp [ht, Ne.symm hvne]), hv3]
            · simp only [List.filterMap_cons, ht]
              refine List.Nodup.cons ?_ ihB
              intro hmem
              obtain ⟨t', ht', hvt⟩ := List.mem_filterMap.1 hmem
              obtain ⟨v, hv1, hv2, _⟩ := ihA t' ht'
              rw [hv1] at hvt
              injection hvt with hvt
              subst hvt
              exact hv2 (mem_addId_self ids v)

/-- C2: with duplicate-allowance disabled each identifier is yielded at
most once and the kept occurrence is the first in input order (the first
list element whose identifier matches); the duplicates counter advances by
the number of occurrences whose identifier was already in the evolving
identifier set, for either allowance setting (counting is unconditional);
and every initial identifier and every seen identifier is in the final
set, so the set only grows. -/
theorem C2_dedup_contract (ts : List Dict) (ids : List Value) (c : Counts) :
    ((process_tweets false ts ids c).1.filterMap
      (fun t => dget t "id")).Nodup ∧
    (∀ t' ∈ (process_tweets false ts ids c).1,
      ∃ v, dget t' "id" = some v ∧ v ∉ ids ∧
        ts.find? (fun u => decide (dget u "id" = some v)) = some t') ∧
    (∀ a : Bool, (process_tweets a ts ids c).2.2.duplicates
      = c.duplicates + dupCount ts ids) ∧
    (∀ a : Bool, ∀ v ∈ ids, v ∈ (process_tweets a ts ids c).2.1) ∧
    (∀ a : Bool, ∀ t ∈ ts, ∀ v, dget t "id" = some v →
      v ∈ (process_tweets a ts ids c).2.1) :=
  ⟨(process_tweets_false_kept ts ids c).2,
   (process_tweets_false_kept ts ids c).1,
   fun a => process_tweets_duplicates a ts ids c,
   fun a => (process_tweets_ids_grow a ts ids c).1,
   fun a => (process_tweets_ids_grow a ts ids c).2⟩

/-- C2 witness: a three-row batch with a repeated identifier, evaluated
concretely after applying the contract: the repeat is dropped, its first
occurrence is kept, and the duplicates counter advances once with
allowance on or off. -/
theorem C2_dedup_witness :
    ((process_tweets false
        [[("id", Value.str "1"), ("text", Value.str "first")],
         [("id", Value.str "2")],
         [("id", Value.str "1"), ("text", Value.str "again")]]
        [] {}).1.filterMap (fun t => dget t "id")).Nodup ∧
    (process_tweets true
        [[("id", Value.str "1"), ("text", Value.str "first")],
         [("id", Value.str "2")],
         [("id", Value.str "1"), ("text", Value.str "again")]]
        [] {}).2.2.duplicates
      = ({} : Counts).duplicates +
        dupCount
          [[("id", Value.str "1"), ("text", Value.str "first")],
           [("id", Value.str "2")],
           [("id", Value.str "1"), ("text", Value.str "again")]] [] :=
  ⟨(C2_dedup_contract
      [[("id", Value.str "1"), ("text", Value.str "first")],
       [("id", Value.str "2")],
       [("id", Value.str "1"), ("text", Value.str "again")]] [] {}).1,
   (C2_dedup_contract
      [[("id", Value.str "1"), ("text", Value.str "first")],
       [("id", Value.str "2")],
       [("id", Value.str "1"), ("text", Value.str "again")]] [] {}).2.2.1 true⟩

theorem inlineLoop_spec (merge : Bool) (pt : Value) (eds : List Dict) :
    ∀ (c : Counts) (krows : List Dict),
    mapOpt (format_tweet merge)
        ((graftTwarc pt eds).filter (fun e => decide (3 < e.length)))
      = some krows →
    inlineLoop merge pt eds c =
      some (krows, graftTwarc pt eds,
        { c with
          referenced_tweets := c.referenced_tweets + eds.length
          unavailable := c.unavailable +
            (graftTwarc pt eds).countP (fun e => decide (¬ 3 < e.length)) }) := by
  induction eds with
  | nil =>
      intro c krows hk
      simp only [graftTwarc, List.map_nil, List.filter_nil, mapOpt] at hk
      injection hk with hk
      subst hk
      simp [inlineLoop, graftTwarc]
  | cons e es ih =>
      intro c krows hk
      by_cases he : 3 < (dset e "__twarc" pt).length
      · simp only [graftTwarc, List.map_cons, List.filter_cons] at hk
        rw [if_pos (by simpa using he)] at hk
        simp only [mapOpt] at hk
        cases hfe : format_tweet merge (dset e "__twarc" pt) with
        | none => rw [hfe] at hk; cases hk
        | some r =>
            rw [hfe] at hk
            cases hrest : mapOpt (format_tweet merge)
                ((es.map (fun x => dset x "__twarc" pt)).filter
                  (fun x => decide (3 < x.length))) with
            | none => rw [hrest] at hk; cases hk
            | some rs =>
                rw [hrest] at hk
                injection hk with hk
                subst hk
                have hes := ih { c with referenced_tweets :=
                    c.referenced_tweets + 1 } rs
                  (by simpa [graftTwarc] using hrest)
                simp only [inlineLoop]
                rw [if_pos (by simpa using he), hfe, hes]
                simp only [graftTwarc, List.map_cons, List.length_cons]
                rw [List.countP_cons_of_neg _ _ (by simpa using he)]
                simp only [Option.some.injEq, Prod.mk.injEq, Counts.mk.injEq,
                  and_true, true_and]
                omega
      · simp only [graftTwarc, List.map_cons, List.filter_cons] at hk
        rw [if_neg (by simpa using he)] at hk
        have hes := ih { c with
            referenced_tweets := c.referenced_tweets + 1
            unavailable := c.unavailable + 1 } krows
          (by simpa [graftTwarc] using hk)
        simp only [inlineLoop]
        rw [if_neg (by simpa using he), hes]
        simp only [graftTwarc, List.map_cons, List.length_cons]
        rw [List.countP_cons_of_pos _ _ (by simpa using he)]
        simp only [Option.some.injEq, Prod.mk.injEq, Counts.mk.injEq,
          and_true, true_and]
        omega

/-- C6: with expansion enabled and a reference list present, every entry
advances the referenced-count by exactly one; the candidate row is the
entry plus the parent retrieval metadata; candidates are kept exactly when
their key count exceeds three, the dropped ones each advancing the
unavailable counter; the kept rows come strictly before the parent row and
the formatted parent is always yielded last; with expansion disabled the
record is formatted and yielded alone. -/
theorem C6_reference_expansion (merge : Bool) (tweet : Dict) (eds : List Dict)
    (c : Counts) (krows : List Dict) (pr : Dict)
    (h1 : dget tweet "referenced_tweets" = some (.arr (eds.map .obj)))
    (hk : mapOpt (format_tweet merge)
        ((graftTwarc ((dget tweet "__twarc").getD .null) eds).filter
          (fun e => decide (3 < e.length))) = some krows)
    (hp : format_tweet merge (dset tweet "referenced_tweets"
        (.arr ((graftTwarc ((dget tweet "__twarc").getD .null) eds).map .obj)))
      = some pr) :
    inline_referenced_tweets true merge tweet c =
      some (krows ++ [pr],
        dset tweet "referenced_tweets"
          (.arr ((graftTwarc ((dget tweet "__twarc").getD .null) eds).map .obj)),
        { c with
          referenced_tweets := c.referenced_tweets + eds.length
          unavailable := c.unavailable +
            (graftTwarc ((dget tweet "__twarc").getD .null) eds).countP
              (fun e => decide (¬ 3 < e.length)) }) ∧
    (∀ t2 pr2, format_tweet merge t2 = some pr2 →
      inline_referenced_tweets false merge t2 c = some ([pr2], t2, c)) := by
  constructor
  · have hcond : (dcontains tweet "referenced_tweets" && true) = true := by
      simp [dcontains, h1]
    have hloop := inlineLoop_spec merge ((dget tweet "__twarc").getD .null) eds c
      krows hk
    have hp' : format_tweet merge (dset tweet "referenced_tweets"
        (.arr ((eds.map (fun e => dset e "__twarc"
          ((dget tweet "__twarc").getD .null))).map .obj))) = some pr := by
      simpa [graftTwarc] using hp
    unfold inline_referenced_tweets
    rw [hcond, if_pos rfl]
    simp only [h1, mapOpt_asObj, hloop, hp', graftTwarc]
  · intro t2 pr2 hf
    unfold inline_referenced_tweets
    simp only [Bool.and_false, Bool.false_eq_true, if_false, hf]

theorem mapOpt_mem {α β : Type} (f : α → Option β) :
    ∀ (l : List α) (ys : List β), mapOpt f l = some ys →
      ∀ y ∈ ys, ∃ x ∈ l, f x = some y := by
  intro l
  induction l with
  | nil =>
      intro ys h y hy
      unfold mapOpt at h
      injection h with h
      subst h
      cases hy
  | cons x xs ih =>
      intro ys h y hy
      unfold mapOpt at h
      cases hfx : f x with
      | none => rw [hfx] at h; cases h
      | some b =>
          rw [hfx] at h
          cases hrest : mapOpt f xs with
          | none => rw [hrest] at h; cases h
          | some bs =>
              rw [hrest] at h
              injection h with h
              subst h
              rcases List.mem_cons.1 hy with rfl | hy
              · exact ⟨x, List.mem_cons_self x xs, hfx⟩
              · obtain ⟨x', hx', hfx'⟩ := ih bs hrest y hy
                exact ⟨x', List.mem_cons_of_mem _ hx', hfx'⟩


/-- C7 (amended): reference expansion, as seen by the caller, keeps every
key of the parent record and removes nothing; the only change is that each
entry of the reference list gains the parent retrieval-metadata key, set
to the parent retrieval metadata or null; and every expanded sibling row
is the normalization of a reference entry plus exactly that inherited
retrieval-metadata field, nothing else from the parent. -/
theorem C7_frame_effect (merge : Bool) (tweet : Dict) (eds : List Dict)
    (c : Counts) (krows : List Dict) (pr : Dict)
    (h1 : dget tweet "referenced_tweets" = some (.arr (eds.map .obj)))
    (hk : mapOpt (format_tweet merge)
        ((graftTwarc ((dget tweet "__twarc").getD .null) eds).filter
          (fun e => decide (3 < e.length))) = some krows)
    (hp : format_tweet merge (dset tweet "referenced_tweets"
        (.arr ((graftTwarc ((dget tweet "__twarc").getD .null) eds).map .obj)))
      = some pr) :
    (∀ rows parent c',
      inline_referenced_tweets true merge tweet c = some (rows, parent, c') →
      parent = dset tweet "referenced_tweets"
        (.arr ((graftTwarc ((dget tweet "__twarc").getD .null) eds).map .obj)) ∧
      (∀ k, k ≠ "referenced_tweets" → dget parent k = dget tweet k) ∧
      dcontains parent "referenced_tweets" = true) ∧
    (∀ r ∈ krows, ∃ e ∈ eds,
      format_tweet merge
        (dset e "__twarc" ((dget tweet "__twarc").getD .null)) = some r) := by
  constructor
  · intro rows parent c' h
    have hcond : (dcontains tweet "referenced_tweets" && true) = true := by
      simp [dcontains, h1]
    have hloop := inlineLoop_spec merge ((dget tweet "__twarc").getD .null) eds c
      krows hk
    have hp' : format_tweet merge (dset tweet "referenced_tweets"
        (.arr ((eds.map (fun e => dset e "__twarc"
          ((dget tweet "__twarc").getD .null))).map .obj))) = some pr := by
      simpa [graftTwarc] using hp
    unfold inline_referenced_tweets at h
    rw [hcond, if_pos rfl] at h
    simp only [h1, mapOpt_asObj, hloop, hp', graftTwarc] at h
    injection h with h
    have hparent : parent = dset tweet "referenced_tweets"
        (.arr ((graftTwarc ((dget tweet "__twarc").getD .null) eds).map .obj)) := by
      have := congrArg (fun p => p.2.1) h
      simpa [graftTwarc] using this.symm
    refine ⟨hparent, ?_, ?_⟩
    · intro k hkne
      rw [hparent, dget_dset_ne _ _ _ _ hkne]
    · rw [hparent]
      simp [dcontains]
  · intro r hr
    obtain ⟨e', he', hfe'⟩ := mapOpt_mem (format_tweet merge) _ krows hk r hr
    have he'' := List.mem_of_mem_filter he'
    obtain ⟨e, he, rfl⟩ := List.mem_map.1 he''
    exact ⟨e, he, hfe'⟩

/-- C7 counterexample: a record with one metadata-only reference entry;
after expansion the parent as seen by the caller has gained a
retrieval-metadata key inside its reference entry (so it differs from the
original record), and the reference substructure has not been removed,
refuting the claim that the parent fields are unchanged except for removal
of the consumed reference substructure. -/
theorem C7_counterexample :
    (inline_referenced_tweets true true
        [("id", Value.str "p"), ("__twarc", Value.str "m"),
         ("referenced_tweets", Value.arr
            [Value.obj [("type", Value.str "retweeted"), ("id", Value.str "9")]])]
        {}).map
        (fun r => (r.2.1,
          dcontains r.2.1 "referenced_tweets",
          decide (r.2.1 =
            [("id", Value.str "p"), ("__twarc", Value.str "m"),
             ("referenced_tweets", Value.arr
                [Value.obj [("type", Value.str "retweeted"),
                  ("id", Value.str "9")]])])))
      = some ([("id", Value.str "p"), ("__twarc", Value.str "m"),
          ("referenced_tweets", Value.arr
            [Value.obj [("type", Value.str "retweeted"), ("id", Value.str "9"),
              ("__twarc", Value.str "m")]])], true, false) := by
  decide

/-- C3 witness: the specification example, a repost whose target carries
text original and five like_count, merged into the repost while the author
id stays the reposting author. -/
theorem C3_witness :
    (format_tweet true
        [("id", Value.str "t"), ("author_id", Value.str "a"),
         ("text", Value.str "RT"),
         ("referenced_tweets", Value.arr
            [Value.obj [("type", Value.str "retweeted"), ("id", Value.str "9"),
              ("author_id", Value.str "8"), ("text", Value.str "original"),
              ("entities", Value.obj [("x", Value.int 1)]),
              ("attachments", Value.obj [("y", Value.int 2)]),
              ("context_annotations", Value.arr [Value.int 3]),
              ("public_metrics",
                Value.obj [("like_count", Value.int 5)])]])]).bind
        (fun out => dget out "text") = some (Value.str "original") ∧
    (format_tweet true
        [("id", Value.str "t"), ("author_id", Value.str "a"),
         ("text", Value.str "RT"),
         ("referenced_tweets", Value.arr
            [Value.obj [("type", Value.str "retweeted"), ("id", Value.str "9"),
              ("author_id", Value.str "8"), ("text", Value.str "original"),
              ("entities", Value.obj [("x", Value.int 1)]),
              ("attachments", Value.obj [("y", Value.int 2)]),
              ("context_annotations", Value.arr [Value.int 3]),
              ("public_metrics",
                Value.obj [("like_count", Value.int 5)])]])]).bind
        (fun out => dget out "public_metrics")
      = some (Value.obj [("like_count", Value.int 5)]) ∧
    (format_tweet true
        [("id", Value.str "t"), ("author_id", Value.str "a"),
         ("text", Value.str "RT"),
         ("referenced_tweets", Value.arr
            [Value.obj [("type", Value.str "retweeted"), ("id", Value.str "9"),
              ("author_id", Value.str "8"), ("text", Value.str "original"),
              ("entities", Value.obj [("x", Value.int 1)]),
              ("attachments", Value.obj [("y", Value.int 2)]),
              ("context_annotations", Value.arr [Value.int 3]),
              ("public_metrics",
                Value.obj [("like_count", Value.int 5)])]])]).bind
        (fun out => dget out "author_id") = some (Value.str "a") := by
  obtain ⟨⟨out, hf, htext, hent, hatt, hctx, hpm, hauth⟩, _⟩ :=
    C3_repost_merge
      [("id", Value.str "t"), ("author_id", Value.str "a"),
       ("text", Value.str "RT"),
       ("referenced_tweets", Value.arr
          [Value.obj [("type", Value.str "retweeted"), ("id", Value.str "9"),
            ("author_id", Value.str "8"), ("text", Value.str "original"),
            ("entities", Value.obj [("x", Value.int 1)]),
            ("attachments", Value.obj [("y", Value.int 2)]),
            ("context_annotations", Value.arr [Value.int 3]),
            ("public_metrics", Value.obj [("like_count", Value.int 5)])]])]
      [[("type", Value.str "retweeted"), ("id", Value.str "9"),
        ("author_id", Value.str "8"), ("text", Value.str "original"),
        ("entities", Value.obj [("x", Value.int 1)]),
        ("attachments", Value.obj [("y", Value.int 2)]),
        ("context_annotations", Value.arr [Value.int 3]),
        ("public_metrics", Value.obj [("like_count", Value.int 5)])]]
      [("retweeted", Value.obj [("id", Value.str "9")])]
      [("type", Value.str "retweeted"), ("id", Value.str "9"),
       ("author_id", Value.str "8"), ("text", Value.str "original"),
       ("entities", Value.obj [("x", Value.int 1)]),
       ("attachments", Value.obj [("y", Value.int 2)]),
       ("context_annotations", Value.arr [Value.int 3]),
       ("public_metrics", Value.obj [("like_count", Value.int 5)])]
      (by decide) (by decide) (by decide) (by decide) (by decide) (by decide)
      (by decide)
      (by intro v hv; simp [dget] at hv)
      (by intro v hv; simp [dget] at hv)
      (by intro v hv; simp [dget] at hv)
  rw [hf]
  exact ⟨htext.trans (by decide), hpm.trans (by decide), hauth.trans (by decide)⟩

/-- C4 witness: an ordinary retweet (one repost-of entry, no quote-of
entry) gains retweeted_user_id from the target author, and a record with
two quote-of entries carrying different target ids gains quoted_user_id
from the last quote-of entry's author. -/
theorem C4_witness :
    (format_tweet true
        [("id", Value.str "rt"),
         ("referenced_tweets", Value.arr
            [Value.obj [("type", Value.str "retweeted"), ("id", Value.str "5"),
              ("author_id", Value.str "R"),
              ("text", Value.str "orig")]])]).bind
        (fun out => dget out "retweeted_user_id") = some (Value.str "R") ∧
    (format_tweet true
        [("id", Value.str "t"),
         ("referenced_tweets", Value.arr
            [Value.obj [("type", Value.str "quoted"), ("id", Value.str "1"),
              ("author_id", Value.str "A")],
             Value.obj [("type", Value.str "quoted"), ("id", Value.str "2"),
              ("author_id", Value.str "B")]])]).bind
        (fun out => dget out "quoted_user_id") = some (Value.str "B") := by
  constructor
  · obtain ⟨out, hf, hrt, _⟩ :=
      C4_reference_user_ids true
        [("id", Value.str "rt"),
         ("referenced_tweets", Value.arr
            [Value.obj [("type", Value.str "retweeted"), ("id", Value.str "5"),
              ("author_id", Value.str "R"), ("text", Value.str "orig")]])]
        [[("type", Value.str "retweeted"), ("id", Value.str "5"),
          ("author_id", Value.str "R"), ("text", Value.str "orig")]]
        [("retweeted", Value.obj [("id", Value.str "5")])]
        (by decide) (by decide) (by decide)
    rw [hf]
    exact hrt
      [("type", Value.str "retweeted"), ("id", Value.str "5"),
       ("author_id", Value.str "R"), ("text", Value.str "orig")]
      (Value.str "R") (by decide) (by decide)
  · obtain ⟨out, hf, _, hq⟩ :=
      C4_reference_user_ids true
        [("id", Value.str "t"),
         ("referenced_tweets", Value.arr
            [Value.obj [("type", Value.str "quoted"), ("id", Value.str "1"),
              ("author_id", Value.str "A")],
             Value.obj [("type", Value.str "quoted"), ("id", Value.str "2"),
              ("author_id", Value.str "B")]])]
        [[("type", Value.str "quoted"), ("id", Value.str "1"),
          ("author_id", Value.str "A")],
         [("type", Value.str "quoted"), ("id", Value.str "2"),
          ("author_id", Value.str "B")]]
        [("quoted", Value.obj [("id", Value.str "1")]),
         ("quoted", Value.obj [("id", Value.str "2")])]
        (by decide) (by decide) (by decide)
    rw [hf]
    exact hq
      [("type", Value.str "quoted"), ("id", Value.str "2"),
       ("author_id", Value.str "B")]
      (Value.str "B") (by decide) (by decide)

/-- C6 witness: one available retweeted reference; the expansion yields the
referenced row immediately before the parent row and the referenced-count
counter advances by exactly one. -/
theorem C6_witness :
    inline_referenced_tweets true true
        [("id", Value.str "p"), ("__twarc", Value.str "m"),
         ("referenced_tweets", Value.arr
            [Value.obj [("type", Value.str "retweeted"), ("id", Value.str "9"),
              ("text", Value.str "orig")]])] {} =
      some ([[("id", Value.str "9"), ("text", Value.str "orig"),
              ("__twarc", Value.str "m"),
              ("referenced_tweets", Value.obj [])],
             [("id", Value.str "p"), ("__twarc", Value.str "m"),
              ("referenced_tweets",
                Value.obj [("retweeted", Value.obj [("id", Value.str "9")])]),
              ("text", Value.str "orig"),
              ("context_annotations", Value.null)]],
        [("id", Value.str "p"), ("__twarc", Value.str "m"),
         ("referenced_tweets", Value.arr
            [Value.obj [("type", Value.str "retweeted"), ("id", Value.str "9"),
              ("text", Value.str "orig"), ("__twarc", Value.str "m")]])],
        { referenced_tweets := 1 }) :=
  (C6_reference_expansion true
    [("id", Value.str "p"), ("__twarc", Value.str "m"),
     ("referenced_tweets", Value.arr
        [Value.obj [("type", Value.str "retweeted"), ("id", Value.str "9"),
          ("text", Value.str "orig")]])]
    [[("type", Value.str "retweeted"), ("id", Value.str "9"),
      ("text", Value.str "orig")]]
    {}
    [[("id", Value.str "9"), ("text", Value.str "orig"),
      ("__twarc", Value.str "m"), ("referenced_tweets", Value.obj [])]]
    [("id", Value.str "p"), ("__twarc", Value.str "m"),
     ("referenced_tweets",
       Value.obj [("retweeted", Value.obj [("id", Value.str "9")])]),
     ("text", Value.str "orig"), ("context_annotations", Value.null)]
    (by decide) (by decide) (by decide)).1

/-- C7 witness: the amended frame facts applied at a record with an empty
reference list, evaluated concretely. -/
theorem C7_witness :
    [("id", Value.str "p"), ("referenced_tweets", Value.arr [])] =
      dset [("id", Value.str "p"), ("referenced_tweets", Value.arr [])]
        "referenced_tweets" (Value.arr []) ∧
    dcontains [("id", Value.str "p"), ("referenced_tweets", Value.arr [])]
      "referenced_tweets" = true := by
  have h := (C7_frame_effect true
      [("id", Value.str "p"), ("referenced_tweets", Value.arr [])] [] {} []
      [("id", Value.str "p"), ("referenced_tweets", Value.obj [])]
      (by decide) (by decide) (by decide)).1
      [[("id", Value.str "p"), ("referenced_tweets", Value.obj [])]]
      [("id", Value.str "p"), ("referenced_tweets", Value.arr [])] {}
      (by decide)
  exact ⟨h.1, h.2.2⟩

theorem mem_replaceChar (c : Char) (new : List Char) :
    ∀ (l : List Char) (a : Char),
      a ∈ replaceChar c new l → a ∈ new ∨ (a ∈ l ∧ a ≠ c) := by
  intro l
  induction l with
  | nil => intro a ha; cases ha
  | cons x xs ih =>
      intro a ha
      simp only [replaceChar] at ha
      rcases List.mem_append.1 ha with h1 | h2
      · by_cases hx : x = c
        · rw [if_pos hx] at h1
          exact Or.inl h1
        · rw [if_neg hx] at h1
          rcases List.mem_singleton.1 h1 with rfl
          exact Or.inr ⟨List.mem_cons_self _ _, hx⟩
      · rcases ih a h2 with h | ⟨hm, hne⟩
        · exact Or.inl h
        · exact Or.inr ⟨List.mem_cons_of_mem _ hm, hne⟩

theorem minimalEscape_no_breaks (s : String) :
    ∀ a ∈ (minimalEscape s).data, a ≠ '\n' ∧ a ≠ '\r' := by
  intro a ha
  have ha' : a ∈ replaceChar '\n' ['\\', 'n'] (replaceChar '\r' [] s.data) := ha
  rcases mem_replaceChar _ _ _ _ ha' with h | ⟨hm, hne⟩
  · rcases List.mem_cons.1 h with rfl | h
    · exact ⟨by decide, by decide⟩
    · rcases List.mem_singleton.1 h with rfl
      exact ⟨by decide, by decide⟩
  · rcases mem_replaceChar _ _ _ _ hm with h0 | ⟨_, hr⟩
    · cases h0
    · exact ⟨hne, hr⟩

/-- C8: in the default cell-encoding mode (encode-all and encode-text both
disabled), a string cell is exactly the minimal escape of its content; the
escaped string contains no raw newline and no carriage return; and the
specification example line1-newline-line2-CR becomes the single-line cell
line1-backslash-n-line2. -/
theorem C8_newline_escape (el : Bool) (s : String) :
    cellTransform false false el (Value.str s) = Value.str (minimalEscape s) ∧
    (∀ a ∈ (minimalEscape s).data, a ≠ '\n' ∧ a ≠ '\r') ∧
    minimalEscape "line1\nline2\r" = "line1\\nline2" := by
  refine ⟨?_, minimalEscape_no_breaks s, by decide⟩
  cases el <;> simp [cellTransform, isListLike]

/-- C8 witness: the escape evaluated on the specification example. -/
theorem C8_witness : minimalEscape "line1\nline2\r" = "line1\\nline2" :=
  (C8_newline_escape true "line1\nline2\r").2.2

theorem encodeRow_reindex_fst (ea et el : Bool) (cols : List String) (r : Dict) :
    (encodeRow ea et el (reindex cols r)).map Prod.fst = cols := by
  unfold encodeRow reindex
  rw [List.map_map, List.map_map]
  show List.map (fun (k : String) => k) cols = cols
  simp

theorem mem_encodeRow_reindex_none (ea et el : Bool) (cols : List String)
    (r : Dict) (k : String) (hk : k ∈ cols) (hnone : dget r k = none) :
    (k, (none : Option Value)) ∈ encodeRow ea et el (reindex cols r) := by
  simp only [encodeRow, reindex, List.map_map]
  refine List.mem_map.2 ⟨k, hk, ?_⟩
  simp [Function.comp, hnone]

/-- C1: over the normalized records of a batch, an observed key path
outside the schema rejects the whole batch: no rows are returned, the
parse-error counter advances by the row count of the batch, and the
surfaced diagnostic holds exactly the unexpected keys; with no such key,
every record is reindexed to exactly the schema column order, any column
absent from a record carrying the missing marker. -/
theorem C1_schema_reconciliation (ea et el : Bool) (cols : List String)
    (normRows : List Dict) (c : Counts) :
    ((∃ k ∈ extendUnique [] ((normRows.map flattenDict).flatMap
        (fun r => r.map Prod.fst)), k ∉ cols) →
      (processBatch ea et el cols normRows c).1 = [] ∧
      (processBatch ea et el cols normRows c).2.1.parse_errors
        = c.parse_errors + normRows.length ∧
      (∃ diff, (processBatch ea et el cols normRows c).2.2 = some diff ∧
        ∀ k, k ∈ diff ↔
          (k ∈ extendUnique [] ((normRows.map flattenDict).flatMap
            (fun r => r.map Prod.fst)) ∧ k ∉ cols))) ∧
    ((∀ k ∈ extendUnique [] ((normRows.map flattenDict).flatMap
        (fun r => r.map Prod.fst)), k ∈ cols) →
      (processBatch ea et el cols normRows c).2.1 = c ∧
      (processBatch ea et el cols normRows c).2.2 = none ∧
      (processBatch ea et el cols normRows c).1
        = normRows.map
            (fun r => encodeRow ea et el (reindex cols (flattenDict r))) ∧
      (∀ row ∈ (processBatch ea et el cols normRows c).1,
        row.map Prod.fst = cols) ∧
      (∀ r ∈ normRows, ∀ k ∈ cols, dget (flattenDict r) k = none →
        (k, (none : Option Value)) ∈
          encodeRow ea et el (reindex cols (flattenDict r)))) := by
  constructor
  · rintro ⟨k, hkobs, hkcols⟩
    have hkdiff : k ∈ (extendUnique [] ((normRows.map flattenDict).flatMap
        (fun r => r.map Prod.fst))).filter (fun k => !(decide (k ∈ cols))) :=
      List.mem_filter.2 ⟨hkobs, by simp [hkcols]⟩
    have hlen : 0 < ((extendUnique [] ((normRows.map flattenDict).flatMap
        (fun r => r.map Prod.fst))).filter
          (fun k => !(decide (k ∈ cols)))).length :=
      List.length_pos.2 (List.ne_nil_of_mem hkdiff)
    simp only [processBatch]
    rw [if_pos hlen]
    refine ⟨rfl, rfl, ⟨_, rfl, ?_⟩⟩
    intro k'
    constructor
    · intro hk'
      obtain ⟨h1, h2⟩ := List.mem_filter.1 hk'
      exact ⟨h1, by simpa using h2⟩
    · intro ⟨h1, h2⟩
      exact List.mem_filter.2 ⟨h1, by simpa using h2⟩
  · intro hall
    have hnil : (extendUnique [] ((normRows.map flattenDict).flatMap
        (fun r => r.map Prod.fst))).filter
          (fun k => !(decide (k ∈ cols))) = [] := by
      rw [List.filter_eq_nil_iff]
      intro k hk
      simp [hall k hk]
    simp only [processBatch]
    rw [hnil, if_neg (by simp)]
    refine ⟨rfl, rfl, by rw [List.map_map, List.map_map]; rfl, ?_, ?_⟩
    · intro row hrow
      rw [List.map_map, List.map_map] at hrow
      obtain ⟨r, hr, rfl⟩ := List.mem_map.1 hrow
      exact encodeRow_reindex_fst ea et el cols (flattenDict r)
    · intro r hr k hk hnone
      exact mem_encodeRow_reindex_none ea et el cols (flattenDict r) k hk hnone

/-- C1 witness: a batch of fifty normalized records in which exactly one
carries the unexpected key path zzz; the batch is rejected whole and the
parse-error counter advances by fifty. -/
theorem C1_witness :
    (processBatch false false true ["id"]
        ([("id", Value.str "y"), ("zzz", Value.int 1)] ::
          List.replicate 49 [("id", Value.str "x")]) {}).1 = [] ∧
    (processBatch false false true ["id"]
        ([("id", Value.str "y"), ("zzz", Value.int 1)] ::
          List.replicate 49 [("id", Value.str "x")]) {}).2.1.parse_errors
      = 50 := by
  have h := (C1_schema_reconciliation false false true ["id"]
      ([("id", Value.str "y"), ("zzz", Value.int 1)] ::
        List.replicate 49 [("id", Value.str "x")]) {}).1
    ⟨"zzz", by decide, by decide⟩
  exact ⟨h.1, h.2.1⟩

/-- C9: evaluating the column constructor on the counts input kind shows
the bug: DEFAULT_COUNTS_COLUMNS is never split on newlines, so iterating
it yields its characters, and the columns contributed are the eleven
distinct one-character strings of start-newline-end-newline-count-newline
rather than the key paths start, end, count. -/
theorem C9_counts_columns :
    buildColumns "counts" "" =
      ["s", "t", "a", "r", "\n", "e", "n", "d", "c", "o", "u"] ∧
    buildColumns "counts" "" ≠ ["start", "end", "count"] ∧
    "start" ∉ buildColumns "counts" "" ∧
    (countsInit (buildColumns "counts" "") "").input_columns = 11 := by
  refine ⟨by decide, by decide, by decide, by decide⟩

/-- C10: for each of the tweets, users and compliance input kinds the
constructed column list ends with an empty-string column coming from the
trailing newline of the split constants; the reported input_columns count
is the length of that list and so includes it; and every accepted batch is
reindexed to a row whose columns include the empty string. -/
theorem C10_trailing_empty_column (ea et el : Bool) :
    (buildColumns "tweets" "").getLast? = some "" ∧
    (buildColumns "users" "").getLast? = some "" ∧
    (buildColumns "compliance" "").getLast? = some "" ∧
    ("" : String) ∈ buildColumns "tweets" "" ∧
    (countsInit (buildColumns "tweets" "") "").input_columns
      = (buildColumns "tweets" "").length ∧
    (∀ normRows c,
      (processBatch ea et el (buildColumns "tweets" "") normRows c).2.2 = none →
      ∀ row ∈ (processBatch ea et el (buildColumns "tweets" "") normRows c).1,
        ("" : String) ∈ row.map Prod.fst) := by
  refine ⟨by decide, by decide, by decide, by decide, rfl, ?_⟩
  intro normRows c hdiag row hrow
  simp only [processBatch] at hdiag hrow
  by_cases hd : 0 < ((extendUnique [] ((normRows.map flattenDict).flatMap
      (fun r => r.map Prod.fst))).filter
        (fun k => !(decide (k ∈ buildColumns "tweets" "")))).length
  · rw [if_pos hd] at hdiag
    cases hdiag
  · rw [if_neg hd] at hrow
    rw [List.map_map, List.map_map] at hrow
    obtain ⟨r, hr, rfl⟩ := List.mem_map.1 hrow
    have hfst := encodeRow_reindex_fst ea et el (buildColumns "tweets" "")
      (flattenDict r)
    have hmem : ("" : String) ∈ buildColumns "tweets" "" := by decide
    rw [← hfst] at hmem
    exact hmem

/-- C10 witness: a concrete accepted one-row batch over the tweet schema;
every emitted row carries a column named by the empty string. -/
theorem C10_witness :
    ((processBatch false false true (buildColumns "tweets" "")
        [[("id", Value.str "1")]] {}).1.all
      (fun row => decide (("" : String) ∈ row.map Prod.fst))) = true := by
  have H := (C10_trailing_empty_column false false true).2.2.2.2.2
    [[("id", Value.str "1")]] {} (by decide)
  rw [List.all_eq_true]
  intro row hrow
  exact decide_eq_true (H row hrow)
